import Mathlib

/-!
Shallow embedding of the document-QA core (`utils/pdf_extractor.py`,
`utils/llm_client.py`, `config.py`), with theorems checking the
specification's claims about it.

Python strings are modelled as `List Char`; Python `bytes` as `List Nat`.
File IO and the third-party parsing libraries (PyPDF2, python-docx,
`bytes.decode`, `requests`) are modelled as oracle parameters: the code
under verification only observes their outcome (raw text, or a raised
exception carrying a message), which each oracle supplies.
-/

/-- Convert a Lean string literal to the `List Char` representation. -/
def chars (s : String) : List Char := s.data

/-- The whitespace test used by Python's `str.strip()` / `str.split()`
(ASCII fragment: space, tab, newline, carriage return, vertical tab,
form feed; the claims only exercise these). -/
def pyIsSpace (c : Char) : Bool :=
  c = ' ' || c = '\t' || c = '\n' || c = '\u000D' || c = '\u000B' || c = '\u000C'

/-- Python `str.strip()`: remove leading and trailing whitespace. -/
def pyStrip (l : List Char) : List Char :=
  ((l.dropWhile pyIsSpace).reverse.dropWhile pyIsSpace).reverse

/-- Python `str.lower()` (ASCII fragment, as used on file-type tags). -/
def pyLower (l : List Char) : List Char := l.map Char.toLower

/-- Python truthiness of an optional string (`None` and `""` are falsy). -/
def pyTruthyStr : Option (List Char) → Bool
  | none => false
  | some s => !s.isEmpty

/-- Python truthiness of an optional bytes value (`None` and `b""` are falsy). -/
def pyTruthyBytes : Option (List Nat) → Bool
  | none => false
  | some b => !b.isEmpty

/-- `re.sub(r' +', ' ', s)`: collapse each run of space characters to a
single space (a space is dropped exactly when another space follows it). -/
def collapseSpaces : List Char → List Char
  | [] => []
  | [c] => [c]
  | a :: b :: rest =>
    if a = ' ' && b = ' ' then collapseSpaces (b :: rest)
    else a :: collapseSpaces (b :: rest)

/-- `DocumentExtractor._clean_text`: split into lines, strip each line,
drop lines that are empty after stripping, rejoin with single newlines,
then collapse runs of spaces. -/
def clean_text (text : List Char) : List Char :=
  if text = [] then []
  else
    let lines := text.splitOn '\n'
    let cleaned_lines := (lines.map pyStrip).filter (fun l => l ≠ [])
    collapseSpaces (['\n'].intercalate cleaned_lines)

/-- Python `text.split()` with no separator: split on whitespace runs,
discarding empty pieces. -/
def pySplitWhitespace (l : List Char) : List (List Char) :=
  (l.splitOnP pyIsSpace).filter (fun w => w ≠ [])

/-- Python `text.split('\n\n')`: split on non-overlapping occurrences of
the two-character separator, scanning left to right. -/
def splitOnNlNl : List Char → List (List Char)
  | [] => [[]]
  | [c] => [[c]]
  | a :: b :: rest =>
    if a = '\n' ∧ b = '\n' then [] :: splitOnNlNl rest
    else
      match splitOnNlNl (b :: rest) with
      | [] => [[a]]
      | p :: ps => (a :: p) :: ps

/-- The record returned by `DocumentExtractor.get_text_stats`. -/
structure TextStats where
  character_count : Nat
  word_count : Nat
  line_count : Nat
  paragraph_count : Nat
deriving DecidableEq

/-- `DocumentExtractor.get_text_stats`. -/
def get_text_stats (text : List Char) : TextStats :=
  if text = [] then ⟨0, 0, 0, 0⟩
  else
    { character_count := text.length
      word_count := (pySplitWhitespace text).length
      line_count := (text.splitOn '\n').length
      paragraph_count := ((splitOnNlNl text).filter (fun p => pyStrip p ≠ [])).length }

/-- The `(success, text, error_message)` triple returned by
`DocumentExtractor.extract_text_from_file`. -/
structure ExtractionResult where
  ok : Bool
  text : List Char
  error : List Char
deriving DecidableEq

/-- `Config.SUPPORTED_FILE_TYPES`. -/
def SUPPORTED_FILE_TYPES : List (List Char) := [chars "pdf", chars "txt", chars "docx"]

/-- `Config.MAX_FILE_SIZE` (10 MB). -/
def MAX_FILE_SIZE : Nat := 10 * 1024 * 1024

/-- Outcome of the acquisition-and-parsing phase inside
`_extract_pdf_text` / `_extract_docx_text` (file IO plus the PyPDF2 /
python-docx library): either the concatenated raw text, or a raised
exception whose message is carried. -/
inductive RawParse where
  | exn (msg : List Char)
  | parsed (raw : List Char)
deriving DecidableEq

/-- Outcome of the acquisition phase inside `_extract_txt_text`: the
decoded text, the every-encoding-failed case, or a raised exception. -/
inductive TxtAcquire where
  | exn (msg : List Char)
  | undecodable
  | decoded (raw : List Char)
deriving DecidableEq

/-- Decimal rendering of a natural number. -/
def natStr (n : Nat) : List Char := Nat.toDigits 10 n

/-- The `File too large: {size_mb:.2f}MB. Maximum size: 10.0MB` message.
The two decimal digits are produced here by rational truncation rather
than float rounding; no claim depends on these digits, only on the
message being non-empty. -/
def fileTooLargeMsg (n : Nat) : List Char :=
  let hundredths := n * 100 / (1024 * 1024)
  chars "File too large: " ++ natStr (hundredths / 100) ++ chars "." ++
    (if hundredths % 100 < 10 then chars "0" else []) ++ natStr (hundredths % 100) ++
    chars "MB. Maximum size: 10.0MB"

/-- `DocumentExtractor._extract_pdf_text`, given the parsing outcome. -/
def extract_pdf_text (parsed : RawParse) : ExtractionResult :=
  match parsed with
  | .exn e => ⟨false, [], chars "Error reading PDF: " ++ e⟩
  | .parsed raw =>
    let text := clean_text raw
    if pyStrip text = [] then ⟨false, [], chars "No text found in PDF file"⟩
    else ⟨true, text, []⟩

/-- `DocumentExtractor._extract_txt_text`, given the acquisition outcome. -/
def extract_txt_text (acquired : TxtAcquire) : ExtractionResult :=
  match acquired with
  | .exn e => ⟨false, [], chars "Error reading TXT file: " ++ e⟩
  | .undecodable => ⟨false, [], chars "Unable to decode text file with common encodings"⟩
  | .decoded raw =>
    let text := clean_text raw
    if pyStrip text = [] then ⟨false, [], chars "No text found in file"⟩
    else ⟨true, text, []⟩

/-- `DocumentExtractor._extract_docx_text`, given the parsing outcome. -/
def extract_docx_text (parsed : RawParse) : ExtractionResult :=
  match parsed with
  | .exn e => ⟨false, [], chars "Error reading DOCX file: " ++ e⟩
  | .parsed raw =>
    let text := clean_text raw
    if pyStrip text = [] then ⟨false, [], chars "No text found in DOCX file"⟩
    else ⟨true, text, []⟩

/-- `file_path.split('.')[-1].lower()`. -/
def fileTypeFromPath (p : List Char) : List Char :=
  pyLower ((p.splitOn '.').getLastD [])

/-- The body of `extract_text_from_file` after the file type has been
determined and lower-cased: supported-set check, size check, dispatch. -/
def extractDispatch (file_content : Option (List Nat))
    (pdfParsed : RawParse) (txtAcquired : TxtAcquire) (docxParsed : RawParse)
    (file_type : List Char) : ExtractionResult :=
  if file_type ∉ SUPPORTED_FILE_TYPES then
    ⟨false, [], chars "Unsupported file type: " ++ file_type ++
      chars ". Supported types: [\u0027pdf\u0027, \u0027txt\u0027, \u0027docx\u0027]"⟩
  else if pyTruthyBytes file_content && decide ((file_content.getD []).length > MAX_FILE_SIZE) then
    ⟨false, [], fileTooLargeMsg (file_content.getD []).length⟩
  else if file_type = chars "pdf" then extract_pdf_text pdfParsed
  else if file_type = chars "txt" then extract_txt_text txtAcquired
  else if file_type = chars "docx" then extract_docx_text docxParsed
  else ⟨false, [], chars "Extraction method not implemented for " ++ file_type⟩

/-- `DocumentExtractor.extract_text_from_file`. Python truthiness governs
the argument checks: `None`, the empty string and empty bytes are falsy. -/
def extract_text_from_file (file_path : Option (List Char))
    (file_content : Option (List Nat)) (file_type : Option (List Char))
    (pdfParsed : RawParse) (txtAcquired : TxtAcquire) (docxParsed : RawParse) :
    ExtractionResult :=
  if pyTruthyStr file_path then
    extractDispatch file_content pdfParsed txtAcquired docxParsed
      (fileTypeFromPath (file_path.getD []))
  else if pyTruthyBytes file_content && pyTruthyStr file_type then
    extractDispatch file_content pdfParsed txtAcquired docxParsed
      (pyLower (file_type.getD []))
  else ⟨false, [], chars "No file provided or file type not specified"⟩

/-- `Config.DEFAULT_MODEL`. -/
def DEFAULT_MODEL : List Char := chars "meta-llama/Meta-Llama-3.1-8B-Instruct-Turbo"

/-- `Config.TEMPERATURE`. -/
def TEMPERATURE : ℚ := 1 / 10

/-- `Config.MAX_TOKENS`. -/
def MAX_TOKENS : Nat := 4000

/-- The state of `LLMClient` after `__init__`: the resolved key and the
truthiness of `self.client` (`None` vs. initialized). `default_model` is
stored unconditionally here; the Python code assigns it only on the
enabled branch but never reads it on the disabled one. -/
structure LLMClient where
  api_key : Option (List Char)
  client : Bool
  default_model : List Char
deriving DecidableEq

/-- `LLMClient.__init__`: `api_key or Config.TOGETHER_API_KEY`, then
disabled iff the resolved key is falsy. -/
def LLMClient.make (api_key_arg env_api_key : Option (List Char)) : LLMClient :=
  let key := if pyTruthyStr api_key_arg then api_key_arg else env_api_key
  { api_key := key, client := pyTruthyStr key, default_model := DEFAULT_MODEL }

/-- The JSON payload `generate_response` posts: model, the single
user-role message content, temperature, max_tokens. -/
structure Payload where
  model : List Char
  content : List Char
  temperature : ℚ
  max_tokens : Nat
deriving DecidableEq

/-- What the HTTP transport (`requests.post` plus response parsing) can
yield: a raised exception, or a response with status code, body text,
and the outcome of extracting `choices[0].message.content` from the
JSON body (`.error` carries the exception a failed extraction raises). -/
inductive TransportOutcome where
  | exn (msg : List Char)
  | resp (status : Nat) (body : List Char) (parsed : Except (List Char) (List Char))

/-- Lines 42-44 of `generate_response`: resolve the per-call parameters
against the configured defaults with Python `or` (so `None`, `""`, `0`
all fall back to the default), and build the request payload. -/
def buildPayload (c : LLMClient) (prompt : List Char) (model : Option (List Char))
    (temperature : Option ℚ) (max_tokens : Option Nat) : Payload :=
  { model := match model with
      | some m => if m.isEmpty then c.default_model else m
      | none => c.default_model
    content := prompt
    temperature := match temperature with
      | some t => if t = 0 then TEMPERATURE else t
      | none => TEMPERATURE
    max_tokens := match max_tokens with
      | some n => if n = 0 then MAX_TOKENS else n
      | none => MAX_TOKENS }

/-- `LLMClient.generate_response`, with the transport as an oracle. -/
def generate_response (c : LLMClient) (transport : Payload → TransportOutcome)
    (prompt : List Char) (model : Option (List Char)) (temperature : Option ℚ)
    (max_tokens : Option Nat) : List Char :=
  if !c.client then chars "❌ API client not initialized, please check API key configuration"
  else
    match transport (buildPayload c prompt model temperature max_tokens) with
    | .exn e => chars "❌ API call failed: " ++ e
    | .resp status body parsed =>
      if status = 200 then
        match parsed with
        | .ok content => content
        | .error e => chars "❌ API call failed: " ++ e
      else
        chars "❌ API request failed with status " ++ natStr status ++ chars ": " ++ body

/-- The summarization prompt built by `summarize_text`. -/
def summaryPrompt (text : List Char) (max_length : Nat) : List Char :=
  chars "\nPlease generate a concise summary of the following text, no more than " ++
  natStr max_length ++ chars " words:\n\nText content:\n" ++ text ++ chars "\n\nSummary:\n"

/-- `LLMClient.summarize_text` (`max_length` defaults to 200 at call sites). -/
def summarize_text (c : LLMClient) (transport : Payload → TransportOutcome)
    (text : List Char) (max_length : Nat) : List Char :=
  if !c.client then chars "❌ Cannot generate summary: API client not initialized"
  else generate_response c transport (summaryPrompt text max_length)
    none none (some (max_length + 50))

/-- The question-answering prompt built by `answer_question`. -/
def qaPrompt (context question : List Char) : List Char :=
  chars "\nBased on the following document content, please answer the user\u0027s question. If the document doesn\u0027t contain relevant information, please state \"No relevant information found in the document.\"\n\nDocument content:\n" ++
  context ++ chars "\n\nUser question: " ++ question ++ chars "\n\nAnswer:\n"

/-- `LLMClient.answer_question`. -/
def answer_question (c : LLMClient) (transport : Payload → TransportOutcome)
    (context question : List Char) : List Char :=
  if !c.client then chars "❌ Cannot answer question: API client not initialized"
  else generate_response c transport (qaPrompt context question) none none none

/-- `LLMClient.test_connection`: probe prompt with `max_tokens=50`, then
failure detection by the `"❌" in response` substring check (the sentinel
is a single character, so substring containment is membership). -/
def test_connection (c : LLMClient) (transport : Payload → TransportOutcome) :
    Bool × List Char :=
  if !c.client then (false, chars "API client not initialized")
  else
    let response := generate_response c transport
      (chars "Please reply \u0027Connection test successful\u0027 to confirm the API is working.")
      none none (some 50)
    if response.contains '❌' then (false, response) else (true, response)

example : clean_text (chars "Line one\n\n\nLine two  with   extra spaces\n") =
    chars "Line one\nLine two with extra spaces" := by decide

example : get_text_stats (chars "hello world\nfoo") = ⟨15, 3, 2, 1⟩ := by decide

example : extract_text_from_file none (some []) (some (chars "txt"))
    (.parsed []) (.decoded (chars "hi")) (.parsed []) =
    ⟨false, [], chars "No file provided or file type not specified"⟩ := by decide

lemma collapseSpaces_cons_cons (a b : Char) (rest : List Char) :
    collapseSpaces (a :: b :: rest) =
      if a = ' ' && b = ' ' then collapseSpaces (b :: rest)
      else a :: collapseSpaces (b :: rest) := rfl

lemma collapseSpaces_ne_nil : ∀ {l : List Char}, l ≠ [] → collapseSpaces l ≠ [] := by
  intro l
  induction l with
  | nil => exact fun h => absurd rfl h
  | cons a as ih =>
    intro _
    cases as with
    | nil => simp [collapseSpaces]
    | cons b bs =>
      rw [collapseSpaces_cons_cons]
      split
      · exact ih (by simp)
      · simp

lemma collapseSpaces_head? : ∀ (l : List Char), (collapseSpaces l).head? = l.head? := by
  intro l
  induction l with
  | nil => rfl
  | cons a as ih =>
    cases as with
    | nil => rfl
    | cons b bs =>
      rw [collapseSpaces_cons_cons]
      split
      · rename_i h
        simp only [Bool.and_eq_true, decide_eq_true_eq] at h
        rw [ih]
        simp [h.1, h.2]
      · simp

lemma collapseSpaces_getLast? : ∀ (l : List Char), (collapseSpaces l).getLast? = l.getLast? := by
  intro l
  induction l with
  | nil => rfl
  | cons a as ih =>
    cases as with
    | nil => rfl
    | cons b bs =>
      rw [collapseSpaces_cons_cons]
      split
      · rw [ih, List.getLast?_cons_cons]
      · cases hcol : collapseSpaces (b :: bs) with
        | nil => exact absurd hcol (collapseSpaces_ne_nil (by simp))
        | cons c cs =>
          rw [List.getLast?_cons_cons, List.getLast?_cons_cons, ← hcol, ih]

lemma collapseSpaces_cons_of_ne_space {c : Char} (hc : c ≠ ' ') (l : List Char) :
    collapseSpaces (c :: l) = c :: collapseSpaces l := by
  cases l with
  | nil => rfl
  | cons b bs => rw [collapseSpaces_cons_cons]; simp [hc]

lemma collapseSpaces_chain' (l : List Char) :
    List.Chain' (fun a b => ¬(a = ' ' ∧ b = ' ')) (collapseSpaces l) := by
  induction l with
  | nil => exact List.chain'_nil
  | cons a as ih =>
    cases as with
    | nil => exact List.chain'_singleton a
    | cons b bs =>
      rw [collapseSpaces_cons_cons]
      split
      · exact ih
      · rename_i h
        simp only [Bool.and_eq_true, decide_eq_true_eq, not_and] at h
        rw [List.chain'_cons']
        refine ⟨?_, ih⟩
        intro y hy
        rw [collapseSpaces_head?] at hy
        simp only [List.head?_cons, Option.mem_def, Option.some.injEq] at hy
        subst hy
        intro hq
        exact h hq.1 hq.2

lemma collapseSpaces_eq_self : ∀ {l : List Char},
    List.Chain' (fun a b => ¬(a = ' ' ∧ b = ' ')) l → collapseSpaces l = l := by
  intro l
  induction l with
  | nil => intro _; rfl
  | cons a as ih =>
    intro h
    cases as with
    | nil => rfl
    | cons b bs =>
      rw [List.chain'_cons] at h
      rw [collapseSpaces_cons_cons, if_neg (by simpa using h.1), ih h.2]

lemma collapseSpaces_idem (l : List Char) :
    collapseSpaces (collapseSpaces l) = collapseSpaces l :=
  collapseSpaces_eq_self (collapseSpaces_chain' l)

lemma collapseSpaces_subset : ∀ {l : List Char} {c : Char}, c ∈ collapseSpaces l → c ∈ l := by
  intro l
  induction l with
  | nil => intro c h; simp [collapseSpaces] at h
  | cons a as ih =>
    intro c h
    cases as with
    | nil => simpa [collapseSpaces] using h
    | cons b bs =>
      rw [collapseSpaces_cons_cons] at h
      split at h
      · exact List.mem_cons_of_mem a (ih h)
      · rcases List.mem_cons.mp h with h | h
        · subst h; exact List.mem_cons_self _ _
        · exact List.mem_cons_of_mem a (ih h)

lemma collapseSpaces_append_singleton {c : Char} (hc : c ≠ ' ') :
    ∀ (l : List Char), collapseSpaces (l ++ [c]) = collapseSpaces l ++ [c] := by
  intro l
  induction l with
  | nil => rfl
  | cons a as ih =>
    cases as with
    | nil =>
      rw [List.cons_append, List.nil_append, collapseSpaces_cons_cons]
      simp [hc, collapseSpaces]
    | cons b bs =>
      rw [List.cons_append, List.cons_append, collapseSpaces_cons_cons,
        collapseSpaces_cons_cons]
      split
      · rw [← List.cons_append, ih]
      · rw [← List.cons_append, ih, List.cons_append]

lemma collapseSpaces_append_cons {c : Char} (hc : c ≠ ' ') :
    ∀ (l1 l2 : List Char),
      collapseSpaces (l1 ++ c :: l2) = collapseSpaces (l1 ++ [c]) ++ collapseSpaces l2 := by
  intro l1 l2
  induction l1 with
  | nil =>
    simp only [List.nil_append]
    rw [collapseSpaces_cons_of_ne_space hc]
    rfl
  | cons a as ih =>
    cases as with
    | nil =>
      simp only [List.cons_append, List.nil_append]
      rw [collapseSpaces_cons_cons, collapseSpaces_cons_cons]
      have hbc : ¬(a = ' ' && c = ' ') = true := by simp [hc]
      rw [if_neg hbc, if_neg hbc, collapseSpaces_cons_of_ne_space hc]
      rfl
    | cons b bs =>
      simp only [List.cons_append]
      rw [collapseSpaces_cons_cons, collapseSpaces_cons_cons]
      split
      · rw [← List.cons_append, ← List.cons_append, ih]
      · rw [← List.cons_append, ← List.cons_append, ih]
        rfl

lemma intercalate_cons_cons (sep x y : List Char) (ls : List (List Char)) :
    sep.intercalate (x :: y :: ls) = x ++ sep ++ sep.intercalate (y :: ls) := by
  simp [List.intercalate, List.intersperse]

lemma intercalate_singleton (sep x : List Char) : sep.intercalate [x] = x := by
  simp [List.intercalate]

lemma collapseSpaces_intercalate : ∀ (ls : List (List Char)),
    collapseSpaces (['\n'].intercalate ls) = ['\n'].intercalate (ls.map collapseSpaces) := by
  intro ls
  induction ls with
  | nil => rfl
  | cons l ls ih =>
    cases ls with
    | nil => rw [List.map_cons, List.map_nil, intercalate_singleton, intercalate_singleton]
    | cons m ms =>
      rw [intercalate_cons_cons, List.append_assoc, List.singleton_append,
        collapseSpaces_append_cons (show ('\n' : Char) ≠ ' ' by decide),
        collapseSpaces_append_singleton (show ('\n' : Char) ≠ ' ' by decide), ih]
      conv_rhs => rw [List.map_cons, List.map_cons, intercalate_cons_cons, ← List.map_cons]

lemma intercalate_nl_head? {m : List Char} (hm : m ≠ []) (ms : List (List Char)) :
    (['\n'].intercalate (m :: ms)).head? = m.head? := by
  cases ms with
  | nil => rw [intercalate_singleton]
  | cons m2 ms2 =>
    rw [intercalate_cons_cons, List.append_assoc]
    exact List.head?_append_of_ne_nil _ hm

lemma intercalate_nl_ne_nil {m : List Char} (hm : m ≠ []) (ms : List (List Char)) :
    ['\n'].intercalate (m :: ms) ≠ [] := by
  cases ms with
  | nil => rwa [intercalate_singleton]
  | cons m2 ms2 =>
    rw [intercalate_cons_cons, List.append_assoc]
    exact List.append_ne_nil_of_left_ne_nil hm _

lemma dropWhile_head_not {p : Char → Bool} :
    ∀ {l : List Char} {c : Char} {rest : List Char}, l.dropWhile p = c :: rest → p c = false := by
  intro l
  induction l with
  | nil => intro c rest h; simp at h
  | cons a as ih =>
    intro c rest h
    rw [List.dropWhile_cons] at h
    split at h
    · exact ih h
    · rename_i hp
      cases h
      simpa using hp

lemma mem_dropWhile_of_not {p : Char → Bool} {c : Char} (hc : p c = false) :
    ∀ {l : List Char}, c ∈ l → c ∈ l.dropWhile p := by
  intro l
  induction l with
  | nil => simp
  | cons a as ih =>
    intro hm
    rw [List.dropWhile_cons]
    split
    · rename_i hp
      rcases List.mem_cons.mp hm with h | h
      · subst h; rw [hc] at hp; simp at hp
      · exact ih h
    · exact hm

lemma pyStrip_head_not_space : ∀ {l : List Char} {c : Char} {rest : List Char},
    pyStrip l = c :: rest → pyIsSpace c = false := by
  intro l c rest h
  obtain ⟨t, ht⟩ :=
    List.dropWhile_suffix (l := (l.dropWhile pyIsSpace).reverse) pyIsSpace
  have hd : l.dropWhile pyIsSpace = pyStrip l ++ t.reverse := by
    have h2 := congrArg List.reverse ht
    rw [List.reverse_append, List.reverse_reverse] at h2
    rw [pyStrip]
    exact h2.symm
  rw [h] at hd
  exact dropWhile_head_not hd

lemma pyStrip_last_not_space : ∀ {l : List Char} {c : Char},
    (pyStrip l).getLast? = some c → pyIsSpace c = false := by
  intro l c h
  rw [pyStrip, List.getLast?_reverse] at h
  cases hy : (l.dropWhile pyIsSpace).reverse.dropWhile pyIsSpace with
  | nil => rw [hy] at h; simp at h
  | cons y ys =>
    rw [hy] at h
    simp only [List.head?_cons, Option.some.injEq] at h
    subst h
    exact dropWhile_head_not hy

lemma pyStrip_subset {l : List Char} : ∀ {c : Char}, c ∈ pyStrip l → c ∈ l := by
  intro c h
  rw [pyStrip, List.mem_reverse] at h
  have h2 := (List.dropWhile_suffix (l := (l.dropWhile pyIsSpace).reverse) pyIsSpace).subset h
  rw [List.mem_reverse] at h2
  exact (List.dropWhile_suffix (l := l) pyIsSpace).subset h2

lemma pyStrip_eq_self {l : List Char}
    (hh : ∀ c, l.head? = some c → pyIsSpace c = false)
    (hl : ∀ c, l.getLast? = some c → pyIsSpace c = false) : pyStrip l = l := by
  cases l with
  | nil => rfl
  | cons a as =>
    have ha : pyIsSpace a = false := hh a rfl
    rw [pyStrip, List.dropWhile_cons, if_neg (by simp [ha])]
    have hrev : (a :: as).reverse.dropWhile pyIsSpace = (a :: as).reverse := by
      cases hr : (a :: as).reverse with
      | nil => simp at hr
      | cons b bs =>
        have hb : (a :: as).getLast? = some b := by
          rw [← List.head?_reverse, hr]
          rfl
        rw [List.dropWhile_cons, if_neg (by simp [hl b hb])]
    rw [hrev, List.reverse_reverse]

lemma pyStrip_ne_nil_of_mem {l : List Char} {c : Char} (hm : c ∈ l)
    (hc : pyIsSpace c = false) : pyStrip l ≠ [] := by
  intro h
  rw [pyStrip, List.reverse_eq_nil_iff] at h
  have h2 : c ∈ (l.dropWhile pyIsSpace).reverse :=
    List.mem_reverse.mpr (mem_dropWhile_of_not hc hm)
  have h3 := mem_dropWhile_of_not hc h2
  rw [h] at h3
  simp at h3

lemma ne_nil_of_pyStrip_ne_nil {t : List Char} (h : pyStrip t ≠ []) : t ≠ [] := by
  intro ht
  subst ht
  exact h rfl

lemma splitOnP_pieces {p : Char → Bool} :
    ∀ (l : List Char), ∀ piece ∈ l.splitOnP p, ∀ c ∈ piece, p c = false := by
  intro l
  induction l with
  | nil =>
    intro piece hp c hc
    rw [List.splitOnP_nil] at hp
    simp only [List.mem_singleton] at hp
    subst hp
    simp at hc
  | cons a as ih =>
    intro piece hp c hc
    rw [List.splitOnP_cons] at hp
    split at hp
    · rcases List.mem_cons.mp hp with h | h
      · subst h; simp at hc
      · exact ih piece h c hc
    · rename_i hpa
      cases hsp : as.splitOnP p with
      | nil => exact absurd hsp (List.splitOnP_ne_nil _ _)
      | cons h0 t0 =>
        rw [hsp] at hp
        simp only [List.modifyHead] at hp
        rcases List.mem_cons.mp hp with h | h
        · subst h
          rcases List.mem_cons.mp hc with h | h
          · subst h; simpa using hpa
          · exact ih h0 (by rw [hsp]; exact List.mem_cons_self _ _) c h
        · exact ih piece (by rw [hsp]; exact List.mem_cons_of_mem _ h) c hc

lemma splitOn_nl_pieces {l piece : List Char} (h : piece ∈ l.splitOn '\n') : '\n' ∉ piece := by
  intro hc
  have := splitOnP_pieces (p := fun c => c == '\n') l piece h '\n' hc
  simp at this

lemma map_fix_eq_self {α : Type} {f : α → α} :
    ∀ {l : List α}, (∀ x ∈ l, f x = x) → l.map f = l := by
  intro l
  induction l with
  | nil => intro _; rfl
  | cons a as ih =>
    intro h
    rw [List.map_cons, h a (List.mem_cons_self a as),
      ih (fun x hx => h x (List.mem_cons_of_mem a hx))]

lemma clean_text_eq {t : List Char} (ht : t ≠ []) :
    clean_text t = ['\n'].intercalate
      ((((t.splitOn '\n').map pyStrip).filter (fun l => l ≠ [])).map collapseSpaces) := by
  simp only [clean_text, if_neg ht]
  exact collapseSpaces_intercalate _

lemma clean_lines_props {t m : List Char}
    (hm : m ∈ (((t.splitOn '\n').map pyStrip).filter (fun l => l ≠ [])).map collapseSpaces) :
    m ≠ [] ∧ '\n' ∉ m ∧ pyStrip m = m ∧ collapseSpaces m = m := by
  rcases List.mem_map.mp hm with ⟨l', hl', rfl⟩
  rcases List.mem_filter.mp hl' with ⟨hmem, hne'⟩
  rcases List.mem_map.mp hmem with ⟨line, hline, rfl⟩
  have hne : pyStrip line ≠ [] := by simpa using hne'
  refine ⟨collapseSpaces_ne_nil hne, ?_, ?_, collapseSpaces_idem _⟩
  · intro hc
    exact splitOn_nl_pieces hline (pyStrip_subset (collapseSpaces_subset hc))
  · apply pyStrip_eq_self
    · intro c hc
      rw [collapseSpaces_head?] at hc
      cases hstrip : pyStrip line with
      | nil => exact absurd hstrip hne
      | cons c0 cs =>
        rw [hstrip] at hc
        simp only [List.head?_cons, Option.some.injEq] at hc
        subst hc
        exact pyStrip_head_not_space hstrip
    · intro c hc
      rw [collapseSpaces_getLast?] at hc
      exact pyStrip_last_not_space hc

lemma clean_text_of_cleaned {L : List (List Char)} (hLne : L ≠ [])
    (hprops : ∀ m ∈ L, m ≠ [] ∧ '\n' ∉ m ∧ pyStrip m = m ∧ collapseSpaces m = m) :
    clean_text (['\n'].intercalate L) = ['\n'].intercalate L := by
  obtain ⟨m0, ms0, rfl⟩ : ∃ m0 ms0, L = m0 :: ms0 := by
    cases L with
    | nil => exact absurd rfl hLne
    | cons a b => exact ⟨a, b, rfl⟩
  have hne : ['\n'].intercalate (m0 :: ms0) ≠ [] :=
    intercalate_nl_ne_nil (hprops m0 (List.mem_cons_self _ _)).1 ms0
  simp only [clean_text, if_neg hne]
  rw [List.splitOn_intercalate (m0 :: ms0) '\n' (fun l hl => (hprops l hl).2.1) (by simp)]
  rw [map_fix_eq_self (fun x hx => (hprops x hx).2.2.1)]
  rw [List.filter_eq_self.mpr (fun a ha => by simpa using (hprops a ha).1)]
  rw [collapseSpaces_intercalate]
  rw [map_fix_eq_self (fun x hx => (hprops x hx).2.2.2)]

/-- C2: the normalization function `_clean_text` is idempotent:
`clean(clean(s)) = clean(s)` for every string `s`. -/
theorem C2_clean_idempotent (s : List Char) :
    clean_text (clean_text s) = clean_text s := by
  by_cases hs : s = []
  · subst hs; rfl
  · by_cases hN : (((s.splitOn '\n').map pyStrip).filter (fun l => l ≠ [])) = []
    · have h1 : clean_text s = [] := by
        simp only [clean_text, if_neg hs, hN]
        rfl
      rw [h1]
      rfl
    · rw [clean_text_eq hs]
      exact clean_text_of_cleaned
        (fun h => hN (by simpa using h))
        (fun m hm => clean_lines_props hm)

lemma splitOnNlNl_cons_cons (a b : Char) (rest : List Char) :
    splitOnNlNl (a :: b :: rest) =
      if a = '\n' ∧ b = '\n' then [] :: splitOnNlNl rest
      else
        match splitOnNlNl (b :: rest) with
        | [] => [[a]]
        | p :: ps => (a :: p) :: ps := rfl

lemma chain'_of_not_mem {x : Char} : ∀ {l : List Char}, x ∉ l →
    List.Chain' (fun a b => ¬(a = x ∧ b = x)) l := by
  intro l
  induction l with
  | nil => intro _; exact List.chain'_nil
  | cons a as ih =>
    intro h
    rw [List.chain'_cons']
    refine ⟨?_, ih (fun hx => h (List.mem_cons_of_mem a hx))⟩
    intro y _ hq
    exact h (by simp [hq.1])

lemma intercalate_no_double_nl : ∀ {L : List (List Char)},
    (∀ m ∈ L, m ≠ [] ∧ '\n' ∉ m) →
    List.Chain' (fun a b => ¬(a = '\n' ∧ b = '\n')) (['\n'].intercalate L) := by
  intro L
  induction L with
  | nil => intro _; exact List.chain'_nil
  | cons m ms ih =>
    intro h
    cases ms with
    | nil =>
      rw [intercalate_singleton]
      exact chain'_of_not_mem (h m (List.mem_cons_self _ _)).2
    | cons m2 ms2 =>
      rw [intercalate_cons_cons, List.append_assoc, List.singleton_append]
      apply List.Chain'.append
      · exact chain'_of_not_mem (h m (List.mem_cons_self _ _)).2
      · rw [List.chain'_cons']
        refine ⟨?_, ih (fun m' hm' => h m' (List.mem_cons_of_mem m hm'))⟩
        intro y hy hq
        rw [intercalate_nl_head? (h m2 (by simp)).1 ms2] at hy
        exact (h m2 (by simp)).2 (List.mem_of_mem_head? (hq.2 ▸ hy))
      · intro x hx y hy hq
        exact (h m (List.mem_cons_self _ _)).2
          (List.mem_of_mem_getLast? (hq.1 ▸ hx))

lemma splitOnNlNl_eq_single : ∀ (l : List Char),
    List.Chain' (fun a b => ¬(a = '\n' ∧ b = '\n')) l → splitOnNlNl l = [l] := by
  intro l
  induction l with
  | nil => intro _; rfl
  | cons a as ih =>
    intro h
    cases as with
    | nil => rfl
    | cons b bs =>
      rw [List.chain'_cons] at h
      rw [splitOnNlNl_cons_cons, if_neg h.1, ih h.2]

lemma stats_paragraph_of_cleaned {L : List (List Char)} (hLne : L ≠ [])
    (hprops : ∀ m ∈ L, m ≠ [] ∧ '\n' ∉ m ∧ pyStrip m = m ∧ collapseSpaces m = m) :
    (get_text_stats (['\n'].intercalate L)).paragraph_count = 1 := by
  obtain ⟨m0, ms0, rfl⟩ : ∃ m0 ms0, L = m0 :: ms0 := by
    cases L with
    | nil => exact absurd rfl hLne
    | cons a b => exact ⟨a, b, rfl⟩
  have hm0 := hprops m0 (List.mem_cons_self _ _)
  have hne : ['\n'].intercalate (m0 :: ms0) ≠ [] := intercalate_nl_ne_nil hm0.1 ms0
  simp only [get_text_stats, if_neg hne]
  rw [splitOnNlNl_eq_single _
    (intercalate_no_double_nl (fun m hm => ⟨(hprops m hm).1, (hprops m hm).2.1⟩))]
  obtain ⟨c0, cs0, hc0⟩ : ∃ c0 cs0, m0 = c0 :: cs0 := by
    cases hx : m0 with
    | nil => exact absurd hx hm0.1
    | cons a b => exact ⟨a, b, rfl⟩
  have hws : pyIsSpace c0 = false := by
    apply pyStrip_head_not_space (l := m0)
    rw [hm0.2.2.1, hc0]
  have hhead : (['\n'].intercalate (m0 :: ms0)).head? = some c0 := by
    rw [intercalate_nl_head? hm0.1, hc0]
    rfl
  have hmem : c0 ∈ ['\n'].intercalate (m0 :: ms0) :=
    List.mem_of_mem_head? (by rw [hhead]; rfl)
  have hstrip : pyStrip (['\n'].intercalate (m0 :: ms0)) ≠ [] :=
    pyStrip_ne_nil_of_mem hmem hws
  simp [hstrip]

/-- C9: for every string `s` with `clean(s)` non-empty, the statistics of
the cleaned text report exactly one paragraph (cleaning drops all blank
lines, so no blank-line separator survives), and the paragraph count does
not exceed the line count. -/
theorem C9_paragraph_count_one (s : List Char) (h : clean_text s ≠ []) :
    (get_text_stats (clean_text s)).paragraph_count = 1 ∧
    (get_text_stats (clean_text s)).paragraph_count ≤
      (get_text_stats (clean_text s)).line_count := by
  have hs : s ≠ [] := by
    intro hs
    rw [hs] at h
    exact h rfl
  have hN : (((s.splitOn '\n').map pyStrip).filter (fun l => l ≠ [])) ≠ [] := by
    intro hN
    apply h
    simp only [clean_text, if_neg hs, hN]
    rfl
  have hLne : (((s.splitOn '\n').map pyStrip).filter (fun l => l ≠ [])).map collapseSpaces ≠ [] :=
    fun hL => hN (by simpa using hL)
  have hpar : (get_text_stats (clean_text s)).paragraph_count = 1 := by
    rw [clean_text_eq hs]
    exact stats_paragraph_of_cleaned hLne (fun m hm => clean_lines_props hm)
  refine ⟨hpar, ?_⟩
  rw [hpar]
  simp only [get_text_stats, if_neg h]
  have h2 : (clean_text s).splitOn '\n' ≠ [] := List.splitOnP_ne_nil _ _
  exact List.length_pos.mpr h2

/-- Witness for C9 at the concrete input `"a\n\nb"`. -/
theorem C9_witness :
    (get_text_stats (clean_text (chars "a\n\nb"))).paragraph_count = 1 ∧
    (get_text_stats (clean_text (chars "a\n\nb"))).paragraph_count ≤
      (get_text_stats (clean_text (chars "a\n\nb"))).line_count :=
  C9_paragraph_count_one (chars "a\n\nb") (by decide)

/-- Reference reading of "number of whitespace-delimited tokens": scan the
text, skipping whitespace and counting each maximal non-whitespace block. -/
def countTokens : List Char → Nat
  | [] => 0
  | c :: rest =>
    if pyIsSpace c then countTokens rest
    else 1 + countTokens (rest.dropWhile (fun d => !pyIsSpace d))
termination_by l => l.length
decreasing_by
  · simp
  · exact Nat.lt_succ_of_le ((List.dropWhile_sublist _).length_le)

lemma countTokens_nil : countTokens [] = 0 := by
  unfold countTokens
  rfl

lemma countTokens_cons (c : Char) (rest : List Char) :
    countTokens (c :: rest) =
      if pyIsSpace c then countTokens rest
      else 1 + countTokens (rest.dropWhile (fun d => !pyIsSpace d)) := by
  conv_lhs => unfold countTokens

lemma filter_ne_nil_cons {x : List Char} (hx : x ≠ []) (xs : List (List Char)) :
    List.filter (fun w => w ≠ []) (x :: xs) = x :: List.filter (fun w => w ≠ []) xs := by
  simp [List.filter_cons, hx]

lemma filter_ne_nil_nil_cons (xs : List (List Char)) :
    List.filter (fun w => w ≠ []) ([] :: xs) = List.filter (fun w => w ≠ []) xs := by
  simp [List.filter_cons]

lemma pySplitWhitespace_length_aux : ∀ (n : Nat), ∀ (t : List Char), t.length = n →
    (pySplitWhitespace t).length = countTokens t := by
  intro n
  induction n using Nat.strong_induction_on with
  | _ n ih =>
    intro t hn
    cases t with
    | nil => rw [countTokens_nil]; rfl
    | cons a as =>
      by_cases ha : pyIsSpace a = true
      · rw [pySplitWhitespace, List.splitOnP_cons, if_pos ha, filter_ne_nil_nil_cons,
          countTokens_cons, if_pos ha]
        exact ih as.length (by rw [← hn]; simp) as rfl
      · have hrec := List.takeWhile_append_dropWhile (p := fun d => !pyIsSpace d) (l := as)
        cases hrest : as.dropWhile (fun d => !pyIsSpace d) with
        | nil =>
          have hall : ∀ x ∈ a :: as, ¬ pyIsSpace x = true := by
            intro x hx
            rcases List.mem_cons.mp hx with h | h
            · subst h; exact ha
            · have hx2 : x ∈ as.takeWhile (fun d => !pyIsSpace d) := by
                rw [← hrec, hrest, List.append_nil] at h
                exact h
              simpa using List.mem_takeWhile_imp hx2
          rw [pySplitWhitespace, List.splitOnP_eq_single _ _ hall,
            filter_ne_nil_cons (by simp) _, countTokens_cons, if_neg ha, hrest,
            countTokens_nil]
          rfl
        | cons s rest' =>
          have hs : pyIsSpace s = true := by
            simpa using dropWhile_head_not hrest
          have hsplit : a :: as = (a :: as.takeWhile (fun d => !pyIsSpace d)) ++ s :: rest' := by
            rw [List.cons_append, ← hrest, hrec]
          have htw : ∀ x ∈ a :: as.takeWhile (fun d => !pyIsSpace d), ¬ pyIsSpace x = true := by
            intro x hx
            rcases List.mem_cons.mp hx with h | h
            · subst h; exact ha
            · simpa using List.mem_takeWhile_imp h
          have hlen2 : (as.takeWhile (fun d => !pyIsSpace d)).length + (s :: rest').length
              = as.length := by
            rw [← hrest, ← List.length_append, hrec]
          have hlen : rest'.length < n := by
            rw [← hn]
            simp only [List.length_cons] at hlen2 ⊢
            omega
          conv_lhs => rw [pySplitWhitespace, hsplit,
            List.splitOnP_first _ _ htw s hs rest']
          rw [filter_ne_nil_cons (by simp) _, List.length_cons]
          have hr := ih rest'.length hlen rest' rfl
          rw [pySplitWhitespace] at hr
          rw [hr, countTokens_cons, if_neg ha, hrest, countTokens_cons, if_pos hs]
          omega

lemma pySplitWhitespace_length (t : List Char) :
    (pySplitWhitespace t).length = countTokens t :=
  pySplitWhitespace_length_aux t.length t rfl

lemma length_splitOn_nl : ∀ (t : List Char), (t.splitOn '\n').length = t.count '\n' + 1 := by
  intro t
  induction t with
  | nil => simp
  | cons a as ih =>
    show ((a :: as).splitOnP (· == '\n')).length = (a :: as).count '\n' + 1
    rw [List.splitOnP_cons]
    by_cases h : a = '\n'
    · subst h
      rw [if_pos (by simp)]
      simp only [List.length_cons]
      rw [show (as.splitOnP (· == '\n')).length = (as.splitOn '\n').length from rfl, ih]
      simp [List.count_cons]
    · rw [if_neg (by simp [h])]
      rw [List.length_modifyHead]
      rw [show (as.splitOnP (· == '\n')).length = (as.splitOn '\n').length from rfl, ih]
      simp [List.count_cons, h]

/-- C8: `get_text_stats` matches its reference definition: character
count is the length of the input, word count is the number of
whitespace-delimited tokens, line count is the number of
newline-delimited segments (one more than the newline count, hence at
least 1 for non-empty text), all four fields are 0 for empty input, and
`stats("hello world\nfoo")` yields 15 characters, 3 words, 2 lines. -/
theorem C8_stats_reference (t : List Char) :
    get_text_stats [] = ⟨0, 0, 0, 0⟩ ∧
    (get_text_stats t).character_count = t.length ∧
    (get_text_stats t).word_count = countTokens t ∧
    (t ≠ [] → (get_text_stats t).line_count = t.count '\n' + 1 ∧
      1 ≤ (get_text_stats t).line_count) ∧
    get_text_stats (chars "hello world\nfoo") = ⟨15, 3, 2, 1⟩ := by
  refine ⟨rfl, ?_, ?_, ?_, by decide⟩
  · by_cases ht : t = []
    · subst ht; rfl
    · simp [get_text_stats, ht]
  · by_cases ht : t = []
    · subst ht; rw [countTokens_nil]; rfl
    · simp only [get_text_stats, if_neg ht]
      exact pySplitWhitespace_length t
  · intro ht
    simp only [get_text_stats, if_neg ht]
    refine ⟨length_splitOn_nl t, ?_⟩
    rw [length_splitOn_nl t]
    omega

/-- Witness for C8 at the concrete two-line input `"a\nb"`. -/
theorem C8_witness :
    (get_text_stats (chars "a\nb")).line_count = (chars "a\nb").count '\n' + 1 ∧
    1 ≤ (get_text_stats (chars "a\nb")).line_count :=
  (C8_stats_reference (chars "a\nb")).2.2.2.1 (by decide)

/-- The strengthened shape of every value `extract_text_from_file` can
return: a success carries non-empty text and an empty error, a failure
carries empty text and a non-empty error. -/
def StrongInv (r : ExtractionResult) : Prop :=
  (r.ok = true ∧ r.text ≠ [] ∧ r.error = []) ∨ (r.ok = false ∧ r.text = [] ∧ r.error ≠ [])

lemma extractionInv_of {r : ExtractionResult} (h : StrongInv r) :
    Xor' (r.ok = true ∧ r.text ≠ []) (r.ok = false ∧ r.error ≠ []) := by
  rcases h with ⟨h1, h2, _⟩ | ⟨h1, _, h3⟩
  · exact Or.inl ⟨⟨h1, h2⟩, fun hb => by rw [h1] at hb; exact absurd hb.1 (by simp)⟩
  · exact Or.inr ⟨⟨h1, h3⟩, fun ha => by rw [h1] at ha; exact absurd ha.1 (by simp)⟩

lemma ne_nil_of_pyStrip_ne_nil2 {t : List Char} (h : ¬ pyStrip t = []) : t ≠ [] :=
  ne_nil_of_pyStrip_ne_nil h

lemma strongInv_pdf (p : RawParse) : StrongInv (extract_pdf_text p) := by
  cases p with
  | exn e =>
    exact Or.inr ⟨rfl, rfl, List.append_ne_nil_of_left_ne_nil (by decide) e⟩
  | parsed raw =>
    simp only [extract_pdf_text]
    split
    · exact Or.inr ⟨rfl, rfl, by decide⟩
    · rename_i h
      exact Or.inl ⟨rfl, ne_nil_of_pyStrip_ne_nil h, rfl⟩

lemma strongInv_txt (a : TxtAcquire) : StrongInv (extract_txt_text a) := by
  cases a with
  | exn e =>
    exact Or.inr ⟨rfl, rfl, List.append_ne_nil_of_left_ne_nil (by decide) e⟩
  | undecodable => exact Or.inr ⟨rfl, rfl, by decide⟩
  | decoded raw =>
    simp only [extract_txt_text]
    split
    · exact Or.inr ⟨rfl, rfl, by decide⟩
    · rename_i h
      exact Or.inl ⟨rfl, ne_nil_of_pyStrip_ne_nil h, rfl⟩

lemma strongInv_docx (p : RawParse) : StrongInv (extract_docx_text p) := by
  cases p with
  | exn e =>
    exact Or.inr ⟨rfl, rfl, List.append_ne_nil_of_left_ne_nil (by decide) e⟩
  | parsed raw =>
    simp only [extract_docx_text]
    split
    · exact Or.inr ⟨rfl, rfl, by decide⟩
    · rename_i h
      exact Or.inl ⟨rfl, ne_nil_of_pyStrip_ne_nil h, rfl⟩

lemma fileTooLargeMsg_ne_nil (n : Nat) : fileTooLargeMsg n ≠ [] := by
  simp only [fileTooLargeMsg]
  apply List.append_ne_nil_of_left_ne_nil
  apply List.append_ne_nil_of_left_ne_nil
  apply List.append_ne_nil_of_left_ne_nil
  apply List.append_ne_nil_of_left_ne_nil
  apply List.append_ne_nil_of_left_ne_nil
  decide

lemma strongInv_dispatch (fc : Option (List Nat)) (p : RawParse) (a : TxtAcquire)
    (d : RawParse) (ft : List Char) : StrongInv (extractDispatch fc p a d ft) := by
  simp only [extractDispatch]
  split
  · exact Or.inr ⟨rfl, rfl, List.append_ne_nil_of_left_ne_nil
      (List.append_ne_nil_of_left_ne_nil (by decide) ft) _⟩
  · split
    · exact Or.inr ⟨rfl, rfl, fileTooLargeMsg_ne_nil _⟩
    · split
      · exact strongInv_pdf p
      · split
        · exact strongInv_txt a
        · split
          · exact strongInv_docx d
          · exact Or.inr ⟨rfl, rfl,
              List.append_ne_nil_of_left_ne_nil (by decide) ft⟩

/-- C1: every result of `extract_text_from_file` — for every combination
of path, byte content, format tag, and every oracle outcome including
exception paths — satisfies the `ExtractionResult` invariant: exactly one
of (ok with non-empty text) or (not ok with non-empty error) holds. -/
theorem C1_extract_invariant (file_path : Option (List Char))
    (file_content : Option (List Nat)) (file_type : Option (List Char))
    (pdfParsed : RawParse) (txtAcquired : TxtAcquire) (docxParsed : RawParse) :
    Xor'
      ((extract_text_from_file file_path file_content file_type
          pdfParsed txtAcquired docxParsed).ok = true ∧
        (extract_text_from_file file_path file_content file_type
          pdfParsed txtAcquired docxParsed).text ≠ [])
      ((extract_text_from_file file_path file_content file_type
          pdfParsed txtAcquired docxParsed).ok = false ∧
        (extract_text_from_file file_path file_content file_type
          pdfParsed txtAcquired docxParsed).error ≠ []) := by
  apply extractionInv_of
  simp only [extract_text_from_file]
  split
  · exact strongInv_dispatch _ _ _ _ _
  · split
    · exact strongInv_dispatch _ _ _ _ _
    · exact Or.inr ⟨rfl, rfl, by decide⟩

/-- C10: for every format tag (and every oracle), calling extract with
empty byte content and no file path yields the missing-input failure —
empty bytes are falsy in Python, so the input check fires before the
format tag, size limit, or any parsing is examined. -/
theorem C10_empty_content (file_type : Option (List Char)) (pdfParsed : RawParse)
    (txtAcquired : TxtAcquire) (docxParsed : RawParse) :
    extract_text_from_file none (some []) file_type pdfParsed txtAcquired docxParsed =
      ⟨false, [], chars "No file provided or file type not specified"⟩ := rfl

lemma extract_content_route (content : List Nat) (hc : content ≠ []) (tag : List Char)
    (htag : tag ≠ []) (p : RawParse) (a : TxtAcquire) (d : RawParse) :
    extract_text_from_file none (some content) (some tag) p a d =
      extractDispatch (some content) p a d (pyLower tag) := by
  have hb : pyTruthyBytes (some content) = true := by
    cases content with
    | nil => exact absurd rfl hc
    | cons x xs => rfl
  have ht : pyTruthyStr (some tag) = true := by
    cases tag with
    | nil => exact absurd rfl htag
    | cons x xs => rfl
  simp only [extract_text_from_file]
  rw [if_neg (by simp [pyTruthyStr])]
  rw [if_pos (show (pyTruthyBytes (some content) && pyTruthyStr (some tag)) = true from by
    rw [hb, ht]; rfl)]
  rfl

lemma dispatch_supported_eq (content : List Nat) (hsize : content.length ≤ MAX_FILE_SIZE)
    (p : RawParse) (a : TxtAcquire) (d : RawParse) :
    extractDispatch (some content) p a d (chars "pdf") = extract_pdf_text p ∧
    extractDispatch (some content) p a d (chars "txt") = extract_txt_text a ∧
    extractDispatch (some content) p a d (chars "docx") = extract_docx_text d := by
  have hgt : ¬ ((some content : Option (List Nat)).getD []).length > MAX_FILE_SIZE := by
    simp only [Option.getD_some]
    omega
  have hsz : (pyTruthyBytes (some content) &&
      decide (((some content : Option (List Nat)).getD []).length > MAX_FILE_SIZE)) = false := by
    rw [decide_eq_false hgt, Bool.and_false]
  have hszn : ¬ (pyTruthyBytes (some content) &&
      decide (((some content : Option (List Nat)).getD []).length > MAX_FILE_SIZE)) = true := by
    rw [hsz]
    exact Bool.false_ne_true
  refine ⟨?_, ?_, ?_⟩
  · simp only [extractDispatch]
    rw [if_neg (by decide), if_neg hszn, if_pos trivial]
  · simp only [extractDispatch]
    rw [if_neg (by decide), if_neg hszn, if_neg (by decide), if_pos trivial]
  · simp only [extractDispatch]
    rw [if_neg (by decide), if_neg hszn, if_neg (by decide), if_neg (by decide),
      if_pos trivial]

/-- C7 counterexample: the tag `"TXT"` is outside the literal supported
set `{pdf, txt, docx}`, yet extraction of the two-byte upload `b"hi"`
declared as `"TXT"` succeeds (the code lower-cases the tag before the
membership check), so the claim as stated — failure for every tag
outside the supported set — is false. -/
theorem C7_counterexample :
    chars "TXT" ∉ SUPPORTED_FILE_TYPES ∧
    (extract_text_from_file none (some [104, 105]) (some (chars "TXT"))
      (RawParse.parsed []) (TxtAcquire.decoded (chars "hi")) (RawParse.parsed [])).ok
      = true := by
  exact ⟨by decide, by decide⟩

/-- C7 (amended): for every non-empty byte input and every non-empty
format tag whose lower-cased form is outside the supported set,
`extract_text_from_file` fails with the message naming the lower-cased
tag and listing the supported set. -/
theorem C7_unsupported_amended (content : List Nat) (hc : content ≠ [])
    (tag : List Char) (htag : tag ≠ [])
    (hmem : pyLower tag ∉ SUPPORTED_FILE_TYPES)
    (p : RawParse) (a : TxtAcquire) (d : RawParse) :
    extract_text_from_file none (some content) (some tag) p a d =
      ⟨false, [], chars "Unsupported file type: " ++ pyLower tag ++
        chars ". Supported types: ['pdf', 'txt', 'docx']"⟩ := by
  rw [extract_content_route content hc tag htag]
  simp only [extractDispatch]
  rw [if_pos hmem]

/-- Witness for the amended C7 at the concrete tag `"xyz"`. -/
theorem C7_witness :
    extract_text_from_file none (some [1]) (some (chars "xyz"))
      (RawParse.parsed []) (TxtAcquire.decoded []) (RawParse.parsed []) =
      ⟨false, [], chars "Unsupported file type: " ++ pyLower (chars "xyz") ++
        chars ". Supported types: ['pdf', 'txt', 'docx']"⟩ :=
  C7_unsupported_amended [1] (by decide) (chars "xyz") (by decide) (by decide)
    (RawParse.parsed []) (TxtAcquire.decoded []) (RawParse.parsed [])

/-- C3: whenever the raw text a format parser produced cleans to
empty-or-whitespace, `extract_text_from_file` fails with the per-format
"no text found" message, for each supported format, even though the
parser itself succeeded. -/
theorem C3_no_text_found (content : List Nat) (hc : content ≠ [])
    (hsize : content.length ≤ MAX_FILE_SIZE) (raw : List Char)
    (hraw : pyStrip (clean_text raw) = [])
    (p : RawParse) (a : TxtAcquire) (d : RawParse) :
    extract_text_from_file none (some content) (some (chars "pdf"))
        (RawParse.parsed raw) a d =
      ⟨false, [], chars "No text found in PDF file"⟩ ∧
    extract_text_from_file none (some content) (some (chars "txt"))
        p (TxtAcquire.decoded raw) d =
      ⟨false, [], chars "No text found in file"⟩ ∧
    extract_text_from_file none (some content) (some (chars "docx"))
        p a (RawParse.parsed raw) =
      ⟨false, [], chars "No text found in DOCX file"⟩ := by
  refine ⟨?_, ?_, ?_⟩
  · rw [extract_content_route content hc _ (by decide),
      show pyLower (chars "pdf") = chars "pdf" from by decide,
      (dispatch_supported_eq content hsize (RawParse.parsed raw) a d).1]
    simp only [extract_pdf_text]
    rw [if_pos hraw]
  · rw [extract_content_route content hc _ (by decide),
      show pyLower (chars "txt") = chars "txt" from by decide,
      (dispatch_supported_eq content hsize p (TxtAcquire.decoded raw) d).2.1]
    simp only [extract_txt_text]
    rw [if_pos hraw]
  · rw [extract_content_route content hc _ (by decide),
      show pyLower (chars "docx") = chars "docx" from by decide,
      (dispatch_supported_eq content hsize p a (RawParse.parsed raw)).2.2]
    simp only [extract_docx_text]
    rw [if_pos hraw]

/-- Witness for C3: a one-byte upload whose PDF parse yields only
newlines (a structurally valid but textless document). -/
theorem C3_witness :
    extract_text_from_file none (some [37]) (some (chars "pdf"))
      (RawParse.parsed (chars "\n\n")) (TxtAcquire.decoded []) (RawParse.parsed []) =
      ⟨false, [], chars "No text found in PDF file"⟩ :=
  (C3_no_text_found [37] (by decide) (by decide) (chars "\n\n") (by decide)
    (RawParse.parsed []) (TxtAcquire.decoded []) (RawParse.parsed [])).1

/-- C4: a client constructed without a truthy API credential is
disabled: `generate_response`, `summarize_text`, `answer_question` and
`test_connection` each return their fixed failure value, for every
transport — so no outcome of the transport is ever consulted and no
network call can influence (or be required for) the result. -/
theorem C4_disabled_client (api_key_arg env_api_key : Option (List Char))
    (hkey : pyTruthyStr (if pyTruthyStr api_key_arg then api_key_arg else env_api_key) = false)
    (transport : Payload → TransportOutcome) (prompt : List Char)
    (model : Option (List Char)) (temperature : Option ℚ) (max_tokens : Option Nat)
    (text context question : List Char) (max_length : Nat) :
    generate_response (LLMClient.make api_key_arg env_api_key) transport prompt
        model temperature max_tokens
      = chars "❌ API client not initialized, please check API key configuration" ∧
    summarize_text (LLMClient.make api_key_arg env_api_key) transport text max_length
      = chars "❌ Cannot generate summary: API client not initialized" ∧
    answer_question (LLMClient.make api_key_arg env_api_key) transport context question
      = chars "❌ Cannot answer question: API client not initialized" ∧
    test_connection (LLMClient.make api_key_arg env_api_key) transport
      = (false, chars "API client not initialized") := by
  have hclient : (LLMClient.make api_key_arg env_api_key).client = false := by
    simp only [LLMClient.make]
    exact hkey
  refine ⟨?_, ?_, ?_, ?_⟩
  · simp only [generate_response, hclient]
    rfl
  · simp only [summarize_text, hclient]
    rfl
  · simp only [answer_question, hclient]
    rfl
  · simp only [test_connection, hclient]
    rfl

/-- Witness for C4: a client built with no key at all, probed through a
concrete transport. -/
theorem C4_witness :
    test_connection (LLMClient.make none none) (fun _ => TransportOutcome.exn []) =
      (false, chars "API client not initialized") :=
  (C4_disabled_client none none (by decide) (fun _ => TransportOutcome.exn []) []
    none none none [] [] [] 0).2.2.2

/-- C5 counterexample: temperature 0 lies in the documented range [0,1],
yet the request built for a caller-supplied temperature 0 carries the
default 0.1 instead — Python's `or` treats 0.0 as falsy — so the claim
that every caller-supplied temperature in [0,1] reaches the request is
false. -/
theorem C5_counterexample :
    (0 : ℚ) ≤ 0 ∧ (0 : ℚ) ≤ 1 ∧
    (buildPayload (LLMClient.make (some (chars "key")) none) (chars "p")
      none (some 0) none).temperature = TEMPERATURE ∧
    TEMPERATURE ≠ (0 : ℚ) := by
  refine ⟨le_refl 0, by norm_num, ?_, by norm_num [TEMPERATURE]⟩
  simp [buildPayload]

/-- C5 (amended): in the request `generate_response` builds, each
parameter is taken from the caller exactly when the supplied value is
truthy in Python's sense, independently of how the other parameters are
supplied: a non-empty model, a nonzero temperature, and a positive token
count each reach the payload; an omitted parameter, a supplied empty
model string, a supplied zero temperature, and a supplied zero token
count each fall back to the configured default (the client's default
model, temperature 1/10, 4000 tokens); the prompt is always carried
verbatim. -/
theorem C5_param_overrides (c : LLMClient) (prompt : List Char)
    (model : Option (List Char)) (temperature : Option ℚ) (max_tokens : Option Nat) :
    (∀ m : List Char, m ≠ [] →
      (buildPayload c prompt (some m) temperature max_tokens).model = m) ∧
    (buildPayload c prompt none temperature max_tokens).model = c.default_model ∧
    (buildPayload c prompt (some []) temperature max_tokens).model = c.default_model ∧
    (∀ t : ℚ, t ≠ 0 →
      (buildPayload c prompt model (some t) max_tokens).temperature = t) ∧
    (buildPayload c prompt model none max_tokens).temperature = TEMPERATURE ∧
    (buildPayload c prompt model (some 0) max_tokens).temperature = TEMPERATURE ∧
    (∀ n : Nat, 0 < n →
      (buildPayload c prompt model temperature (some n)).max_tokens = n) ∧
    (buildPayload c prompt model temperature none).max_tokens = MAX_TOKENS ∧
    (buildPayload c prompt model temperature (some 0)).max_tokens = MAX_TOKENS ∧
    (buildPayload c prompt model temperature max_tokens).content = prompt := by
  refine ⟨?_, rfl, rfl, ?_, rfl, ?_, ?_, rfl, rfl, rfl⟩
  · intro m hm
    have hm2 : m.isEmpty = false := by
      cases m with
      | nil => exact absurd rfl hm
      | cons x xs => rfl
    simp [buildPayload, hm2]
  · intro t ht
    simp [buildPayload, ht]
  · simp [buildPayload]
  · intro n hn
    have hn2 : n ≠ 0 := by omega
    simp [buildPayload, hn2]

/-- Witness for the amended C5: the mixed supplied/omitted pattern that
`summarize_text` itself uses — model and temperature omitted, token
count supplied — plus a truthy model override alongside supplied
temperature and token count. -/
theorem C5_witness :
    (buildPayload (LLMClient.make (some (chars "k")) none) (chars "p")
      none none (some 250)).max_tokens = 250 ∧
    (buildPayload (LLMClient.make (some (chars "k")) none) (chars "p")
      none none (some 250)).model =
      (LLMClient.make (some (chars "k")) none).default_model ∧
    (buildPayload (LLMClient.make (some (chars "k")) none) (chars "p")
      (some (chars "m")) (some (1 / 2)) (some 250)).model = chars "m" :=
  ⟨(C5_param_overrides (LLMClient.make (some (chars "k")) none) (chars "p")
      none none (some 250)).2.2.2.2.2.2.1 250 (by norm_num),
    (C5_param_overrides (LLMClient.make (some (chars "k")) none) (chars "p")
      none none (some 250)).2.1,
    (C5_param_overrides (LLMClient.make (some (chars "k")) none) (chars "p")
      none (some (1 / 2)) (some 250)).1 (chars "m") (by decide)⟩

lemma generate_response_disabled {c : LLMClient} (hcl : c.client = false)
    (transport : Payload → TransportOutcome) (prompt : List Char)
    (model : Option (List Char)) (temperature : Option ℚ) (max_tokens : Option Nat) :
    generate_response c transport prompt model temperature max_tokens =
      chars "❌ API client not initialized, please check API key configuration" := by
  simp only [generate_response, hcl]
  rfl

lemma generate_response_exn {c : LLMClient} (hcl : c.client = true)
    (transport : Payload → TransportOutcome) (prompt : List Char)
    (model : Option (List Char)) (temperature : Option ℚ) (max_tokens : Option Nat)
    {e : List Char}
    (htr : transport (buildPayload c prompt model temperature max_tokens) =
      TransportOutcome.exn e) :
    generate_response c transport prompt model temperature max_tokens =
      chars "❌ API call failed: " ++ e := by
  simp only [generate_response, hcl, htr]
  rfl

lemma generate_response_200_ok {c : LLMClient} (hcl : c.client = true)
    (transport : Payload → TransportOutcome) (prompt : List Char)
    (model : Option (List Char)) (temperature : Option ℚ) (max_tokens : Option Nat)
    {body content : List Char}
    (htr : transport (buildPayload c prompt model temperature max_tokens) =
      TransportOutcome.resp 200 body (Except.ok content)) :
    generate_response c transport prompt model temperature max_tokens = content := by
  simp only [generate_response, hcl, htr]
  rfl

lemma generate_response_200_err {c : LLMClient} (hcl : c.client = true)
    (transport : Payload → TransportOutcome) (prompt : List Char)
    (model : Option (List Char)) (temperature : Option ℚ) (max_tokens : Option Nat)
    {body e : List Char}
    (htr : transport (buildPayload c prompt model temperature max_tokens) =
      TransportOutcome.resp 200 body (Except.error e)) :
    generate_response c transport prompt model temperature max_tokens =
      chars "❌ API call failed: " ++ e := by
  simp only [generate_response, hcl, htr]
  rfl

lemma generate_response_non200 {c : LLMClient} (hcl : c.client = true)
    (transport : Payload → TransportOutcome) (prompt : List Char)
    (model : Option (List Char)) (temperature : Option ℚ) (max_tokens : Option Nat)
    {status : Nat} {body : List Char} {parsed : Except (List Char) (List Char)}
    (hst : status ≠ 200)
    (htr : transport (buildPayload c prompt model temperature max_tokens) =
      TransportOutcome.resp status body parsed) :
    generate_response c transport prompt model temperature max_tokens =
      chars "❌ API request failed with status " ++ natStr status ++ chars ": " ++ body := by
  simp only [generate_response, hcl, htr]
  rw [if_neg hst]
  rfl

lemma generate_sentinel (c : LLMClient) (transport : Payload → TransportOutcome)
    (prompt : List Char) (model : Option (List Char)) (temperature : Option ℚ)
    (max_tokens : Option Nat) :
    (∃ body content, transport (buildPayload c prompt model temperature max_tokens) =
        TransportOutcome.resp 200 body (Except.ok content) ∧
      generate_response c transport prompt model temperature max_tokens = content) ∨
    (generate_response c transport prompt model temperature max_tokens).take 1 = ['❌'] := by
  cases hcl : c.client with
  | false =>
    right
    rw [generate_response_disabled hcl]
    rfl
  | true =>
    cases htr : transport (buildPayload c prompt model temperature max_tokens) with
    | exn e =>
      right
      rw [generate_response_exn hcl transport prompt model temperature max_tokens htr]
      rfl
    | resp status body parsed =>
      by_cases hst : status = 200
      · subst hst
        cases parsed with
        | ok content =>
          left
          exact ⟨body, content, rfl,
            generate_response_200_ok hcl transport prompt model temperature max_tokens htr⟩
        | error e =>
          right
          rw [generate_response_200_err hcl transport prompt model temperature max_tokens htr]
          rfl
      · right
        rw [generate_response_non200 hcl transport prompt model temperature max_tokens hst htr]
        rfl

lemma summarize_sentinel (c : LLMClient) (transport : Payload → TransportOutcome)
    (text : List Char) (max_length : Nat) :
    (∃ body content, transport (buildPayload c (summaryPrompt text max_length)
        none none (some (max_length + 50))) =
        TransportOutcome.resp 200 body (Except.ok content) ∧
      summarize_text c transport text max_length = content) ∨
    (summarize_text c transport text max_length).take 1 = ['❌'] := by
  cases hcl : c.client with
  | false =>
    right
    simp only [summarize_text, hcl]
    rfl
  | true =>
    have heq : summarize_text c transport text max_length =
        generate_response c transport (summaryPrompt text max_length)
          none none (some (max_length + 50)) := by
      simp only [summarize_text, hcl]
      rfl
    rw [heq]
    exact generate_sentinel c transport (summaryPrompt text max_length)
      none none (some (max_length + 50))

lemma answer_sentinel (c : LLMClient) (transport : Payload → TransportOutcome)
    (context question : List Char) :
    (∃ body content, transport (buildPayload c (qaPrompt context question)
        none none none) = TransportOutcome.resp 200 body (Except.ok content) ∧
      answer_question c transport context question = content) ∨
    (answer_question c transport context question).take 1 = ['❌'] := by
  cases hcl : c.client with
  | false =>
    right
    simp only [answer_question, hcl]
    rfl
  | true =>
    have heq : answer_question c transport context question =
        generate_response c transport (qaPrompt context question) none none none := by
      simp only [answer_question, hcl]
      rfl
    rw [heq]
    exact generate_sentinel c transport (qaPrompt context question) none none none

/-- C6: every failure-path string of the plain-string operations
`generate_response`, `summarize_text` and `answer_question` — the
disabled-client message, the non-200 HTTP message, and the
network/timeout/parse-exception message — begins with the sentinel
character "❌"; the only results that need not are the contents of a
successful HTTP-200 response, so callers can detect failure by substring
inspection alone. -/
theorem C6_failure_sentinel (c : LLMClient) (transport : Payload → TransportOutcome)
    (prompt text context question : List Char) (model : Option (List Char))
    (temperature : Option ℚ) (max_tokens : Option Nat) (max_length : Nat) :
    ((∃ body content, transport (buildPayload c prompt model temperature max_tokens) =
        TransportOutcome.resp 200 body (Except.ok content) ∧
      generate_response c transport prompt model temperature max_tokens = content) ∨
      (generate_response c transport prompt model temperature max_tokens).take 1 = ['❌']) ∧
    ((∃ body content, transport (buildPayload c (summaryPrompt text max_length)
        none none (some (max_length + 50))) =
        TransportOutcome.resp 200 body (Except.ok content) ∧
      summarize_text c transport text max_length = content) ∨
      (summarize_text c transport text max_length).take 1 = ['❌']) ∧
    ((∃ body content, transport (buildPayload c (qaPrompt context question)
        none none none) = TransportOutcome.resp 200 body (Except.ok content) ∧
      answer_question c transport context question = content) ∨
      (answer_question c transport context question).take 1 = ['❌']) :=
  ⟨generate_sentinel c transport prompt model temperature max_tokens,
    summarize_sentinel c transport text max_length,
    answer_sentinel c transport context question⟩
